import Mathlib

/-!
Verification of the arachnid crawling engine's middleware-chaining protocol
(`src/arachnid/downloadermw.py`) and task-distribution pipeline
(`src/arachnid/engine.py`), as a shallow embedding in Lean 4.

Python values flowing through the middleware chains are modelled by the
inductive type `Val`; exceptions (Python `Exception` subclasses) by `Exc`;
`BaseException`-level process signals by `PyExc`.  Hooks are modelled as Lean
functions, mirroring the bound-method lists stored in
`MiddlewareManager.methods`.  Raising an exception is modelled by
`Except.error`; `download`'s `try/except Exception` block is the
`Except`-valued composition below.
-/

namespace Arachnid

/-- A Task (`arachnid.request.Request`): a URL plus the callback binding
(identified here by the owning spider and callback name). -/
structure Request where
  url : String
  callback : String
deriving DecidableEq, Repr

/-- A Result (`arachnid.response.Response`): url, status code, headers, body,
back-reference to the originating Task. -/
structure Response where
  url : String
  status : Nat
  headers : List (String × String)
  body : String
  request : Request
deriving DecidableEq, Repr

/-- Python `Exception` subclasses relevant to the engine: the `IgnoreRequest`
sentinel, `AssertionError` (raised by the contract-checking `assert`
statements in `download`), and any other exception. -/
inductive Exc where
  | ignoreRequest (msg : String)
  | assertionError (msg : String)
  | other (msg : String)
deriving DecidableEq, Repr

/-- An element of an iterable returned by a `process_exception` hook. -/
inductive Outcome where
  | req (t : Request)
  | resp (r : Response)
  | exc (e : Exc)
  | str (s : String)
deriving DecidableEq, Repr

/-- The universe of Python values a middleware hook can return and that
`download` can produce: `None`, a Response, a Request, an exception value,
an iterable (list) of outcomes, or some other object (modelled by a string). -/
inductive Val where
  | none
  | resp (r : Response)
  | req (t : Request)
  | exc (e : Exc)
  | seq (l : List Outcome)
  | str (s : String)
deriving DecidableEq, Repr

/-- Python truthiness of a `Val` (used by `if response:` in
`download.process_request`): `None` is falsy, empty lists and empty strings
are falsy, every other modelled object is truthy. -/
def pyTruthy : Val → Bool
  | .none => false
  | .seq l => !l.isEmpty
  | .str s => !s.isEmpty
  | _ => true

/-- The `assert` condition shared by the request and response phases:
`response is None or isinstance(response, (Response, Request))`. -/
def allowedHookReturn : Val → Bool
  | .none => true
  | .resp _ => true
  | .req _ => true
  | _ => false

/-- Shallow `isinstance(v, Request)`. -/
def isRequestVal : Val → Bool
  | .req _ => true
  | _ => false

/-- Shallow `isinstance(v, Response)`. -/
def isResponseVal : Val → Bool
  | .resp _ => true
  | _ => false

/-- Shallow `isinstance(v, Exception)`. -/
def isExceptionVal : Val → Bool
  | .exc _ => true
  | _ => false

/-- Shallow `isinstance(v, IgnoreRequest)` (`IgnoreRequest` is an `Exception`
subclass, see `arachnid.exceptions`). -/
def isIgnoreRequestVal : Val → Bool
  | .exc (.ignoreRequest _) => true
  | _ => false

/-- Shallow `_isiterable` (`hasattr(v, '__iter__')`): lists and strings are
iterable, the other modelled objects are not. -/
def isIterableVal : Val → Bool
  | .seq _ => true
  | .str _ => true
  | _ => false

/-- A bound `process_request(request=..., spider=...)` hook.  The spider
argument is fixed per chain and therefore implicit in the embedding. -/
abbrev RequestHook : Type := Request → Val

/-- A bound `process_response(request=..., response=..., spider=...)` hook. -/
abbrev ResponseHook : Type := Request → Val → Val

/-- A bound `process_exception(request=..., exception=..., spider=...)` hook. -/
abbrev ExceptionHook : Type := Request → Exc → Val

/-- The inner `process_request` loop of `DownloaderMiddlewareManager.download`
(downloadermw.py lines 67-78): run each request hook on the (never rebound)
request; assert the return value is `None`, a Response or a Request; a truthy
return short-circuits; otherwise fall through to `download_func`. -/
def process_request (methods : List RequestHook)
    (download_func : Request → Except Exc Val) (request : Request) :
    Except Exc Val :=
  match methods with
  | [] => download_func request
  | method :: rest =>
    let response := method request
    if allowedHookReturn response then
      if pyTruthy response then Except.ok response
      else process_request rest download_func request
    else Except.error (.assertionError "process_request must return None, Response or Request")

/-- The `for` loop of the inner `process_response`
(downloadermw.py lines 85-93): each hook's return value is rebound to
`response` (so a `None` return is folded forward); the contract assert allows
`None`, a Response or a Request; a Request return short-circuits. -/
def process_response_loop (methods : List ResponseHook) (request : Request)
    (response : Val) : Except Exc Val :=
  match methods with
  | [] => Except.ok response
  | method :: rest =>
    let response' := method request response
    if allowedHookReturn response' then
      if isRequestVal response' then Except.ok response'
      else process_response_loop rest request response'
    else Except.error (.assertionError "process_response must return Response or Request")

/-- The inner `process_response` of `download` (downloadermw.py lines 80-93):
assert the incoming value is not `None`; return a Request immediately
(skipping every response hook); otherwise run the hook loop. -/
def process_response (methods : List ResponseHook) (request : Request)
    (response : Val) : Except Exc Val :=
  if response = Val.none then
    Except.error (.assertionError "Received None in process_response")
  else if isRequestVal response then Except.ok response
  else process_response_loop methods request response

/-- The inner `process_exception` of `download` (downloadermw.py lines
95-104): offer the failure to each exception hook in list order; assert the
return is `None` or iterable; the first non-`None` return is the result; if
every hook returns `None`, the original failure value is returned. -/
def process_exception (methods : List ExceptionHook) (request : Request)
    (failure : Exc) : Except Exc Val :=
  match methods with
  | [] => Except.ok (.exc failure)
  | method :: rest =>
    let result := method request failure
    if result = Val.none then process_exception rest request failure
    else if isIterableVal result then Except.ok result
    else Except.error (.assertionError "process_exception must return None or an iterable object")

/-- The body of `download`'s `try` block (downloadermw.py lines 107-108):
`resp = await process_request(request); resp = await process_response(resp)`. -/
def download_attempt (reqMethods : List RequestHook)
    (respMethods : List ResponseHook) (download_func : Request → Except Exc Val)
    (request : Request) : Except Exc Val :=
  match process_request reqMethods download_func request with
  | Except.error e => Except.error e
  | Except.ok resp => process_response respMethods request resp

/-- `DownloaderMiddlewareManager.download` (downloadermw.py lines 106-112):
any `Exception` raised by the request phase, the fetch, or the response phase
is handed to `process_exception`; an `Except.error` out of `download` itself
models an exception escaping `download` (only possible from the `assert`
inside `process_exception`). -/
def download (reqMethods : List RequestHook) (respMethods : List ResponseHook)
    (excMethods : List ExceptionHook) (download_func : Request → Except Exc Val)
    (request : Request) : Except Exc Val :=
  match download_attempt reqMethods respMethods download_func request with
  | Except.ok resp => Except.ok resp
  | Except.error exc => process_exception excMethods request exc

/-- A middleware as seen by `_add_middleware`: it exposes any subset of the
three downloader capability hooks (duck-typed `hasattr` checks modelled by
`Option`). -/
structure Middleware where
  process_request : Option RequestHook
  process_response : Option ResponseHook
  process_exception : Option ExceptionHook

/-- The per-capability hook lists stored in `self.methods`. -/
structure Methods where
  process_request : List RequestHook
  process_response : List ResponseHook
  process_exception : List ExceptionHook

/-- A freshly constructed manager holds empty hook lists. -/
def Methods.empty : Methods :=
  { process_request := []
    process_response := []
    process_exception := [] }

/-- `DownloaderMiddlewareManager._add_middleware` (downloadermw.py lines
57-64): `process_request` hooks are appended at the end, `process_response`
and `process_exception` hooks are inserted at position 0. -/
def add_middleware (ms : Methods) (mw : Middleware) : Methods :=
  { process_request := ms.process_request ++ mw.process_request.toList
    process_response := mw.process_response.toList ++ ms.process_response
    process_exception := mw.process_exception.toList ++ ms.process_exception }

/-- Registering a sequence of middlewares on a fresh chain: successive
`_add_middleware` calls starting from empty hook lists. -/
def register_middlewares (mws : List Middleware) : Methods :=
  mws.foldl add_middleware Methods.empty

/-- `self.seen_urls.add(url)`: the SeenSet is a Python `set`, modelled as a
duplicate-free list. -/
def addSeen (seen : List String) (u : String) : List String :=
  if u ∈ seen then seen else u :: seen

/-- The raw transport response produced by `aiohttp.request` before
`Engine.fetch` wraps it in a `Response`. -/
structure TransportResponse where
  url : String
  status : Nat
  headers : List (String × String)
  body : String
deriving DecidableEq, Repr

/-- `Engine.fetch` (engine.py lines 116-130): record `task.url` into
`seen_urls` first, then perform the transport GET; a transport fault
propagates (`Except.error`) but the SeenSet update has already happened.  On
success a `Response` is built from the raw transport response with a
back-reference to the task. -/
def fetch (seen : List String) (task : Request)
    (transport : Request → Except Exc TransportResponse) :
    List String × Except Exc Response :=
  let seen' := addSeen seen task.url
  match transport task with
  | Except.error e => (seen', Except.error e)
  | Except.ok raw => (seen', Except.ok ⟨raw.url, raw.status, raw.headers, raw.body, task⟩)

/-- What `Engine.distribute` does with the value returned by `download`
(engine.py lines 139-150): re-queue a Request, silently drop an
`IgnoreRequest`, log-and-drop any other exception value, and hand everything
else to the spider chain's `scrape_response`. -/
inductive DistributeAction where
  | requeue (t : Request)
  | dropIgnored
  | dropError (e : Exc)
  | scrape (v : Val)
deriving DecidableEq, Repr

/-- The classification cascade of `Engine.distribute` (engine.py lines
139-150): `isinstance(response, Request)`, then `isinstance(response,
IgnoreRequest)`, then `isinstance(response, Exception)`, and every remaining
value falls through to `scrape_response`. -/
def classify_download_result : Val → DistributeAction
  | .req t => .requeue t
  | .exc (.ignoreRequest _) => .dropIgnored
  | .exc e => .dropError e
  | v => .scrape v

/-- `Engine.distribute`'s effect on the shared task queue (engine.py line
141): a Request outcome is pushed with `put_nowait`, which appends at the
tail of the FIFO; every other outcome leaves the queue untouched. -/
def distribute_step (queue : List Request) (v : Val) :
    List Request × DistributeAction :=
  match classify_download_result v with
  | .requeue t => (queue ++ [t], .requeue t)
  | a => (queue, a)

/-- A `BaseException`-level Python value, distinguishing the four fatal
process signals the consumer re-raises (engine.py line 175) from ordinary
exceptions and from other non-fatal `BaseException`s. -/
inductive PyExc where
  | keyboardInterrupt
  | memoryError
  | systemExit
  | cancelledError
  | exception (e : Exc)
  | otherBase (s : String)
deriving DecidableEq, Repr

/-- Membership in the `except (KeyboardInterrupt, MemoryError, SystemExit,
asyncio.CancelledError)` tuple of `Engine.consumer`. -/
def isFatalSignal : PyExc → Bool
  | .keyboardInterrupt => true
  | .memoryError => true
  | .systemExit => true
  | .cancelledError => true
  | _ => false

/-- The outcome of one iteration of the consumer's `while True` loop: either
the loop continues with the next queue pull, or an exception propagates and
terminates the worker.  The flag records whether `queue.task_done()` ran
(it sits in a `finally`, so it runs on every path). -/
inductive WorkerStep where
  | continueLoop (acked : Bool)
  | propagate (e : PyExc) (acked : Bool)
deriving DecidableEq, Repr

/-- One iteration of `Engine.consumer`'s loop body (engine.py lines 172-180),
as a function of the outcome of `await self.distribute(request, logger)`:
a normal return continues the loop; a fatal signal is re-raised; any other
`BaseException` is logged and the loop continues; `task_done` runs in the
`finally` on every path. -/
def consumer_iteration (distributeOutcome : Except PyExc Unit) : WorkerStep :=
  match distributeOutcome with
  | Except.ok _ => .continueLoop true
  | Except.error e =>
    if isFatalSignal e then .propagate e true
    else .continueLoop true

/-- Running the consumer loop over a (finite prefix of a) stream of
`distribute` outcomes: returns how many pulled tasks were acknowledged and
the exception that escaped the worker, if any. -/
def consumer_run : List (Except PyExc Unit) → Nat × Option PyExc
  | [] => (0, Option.none)
  | o :: rest =>
    match consumer_iteration o with
    | .continueLoop _ => ((consumer_run rest).1 + 1, (consumer_run rest).2)
    | .propagate e _ => (1, some e)

/-- A spider class, before `register_spider` instantiates it with
`spider(logger=logger)`.  The `name` is a class attribute. -/
structure SpiderClass where
  name : String
deriving DecidableEq, Repr

/-- A spider instance, carrying the child logger name it was constructed
with. -/
structure SpiderInstance where
  name : String
  loggerChild : String
deriving DecidableEq, Repr

/-- `spider = spider(logger=self.logger.getChild(spider.name))` in
`Engine.register_spider` (engine.py lines 91-92). -/
def instantiate_spider (c : SpiderClass) : SpiderInstance :=
  ⟨c.name, c.name⟩

/-- The value bound to the `spider` variable at `return spider`: the class
passed in when the branch was not taken, or the freshly built instance. -/
inductive SpiderVal where
  | cls (c : SpiderClass)
  | inst (i : SpiderInstance)
deriving DecidableEq, Repr

/-- The registry entry built by `Engine.register_spider` (engine.py lines
93-98): the spider instance plus one fresh manager for each of the three
chains.  The spider and result chain managers follow the same
`MiddlewareManager` pattern (spec §2), so their hook storage is modelled with
the same `Methods` shape. -/
structure SpiderRegistration where
  spider : SpiderInstance
  downloadmwmanager : Methods
  spidermwmanager : Methods
  resultmwmanager : Methods

/-- `Engine.register_spider` (engine.py lines 89-99): when no entry exists
for `spider.name`, instantiate the class, store a fresh registration and
return the instance; otherwise leave the registry untouched and return the
argument (the class) unchanged. -/
def register_spider (spiders : List (String × SpiderRegistration))
    (spider : SpiderClass) :
    List (String × SpiderRegistration) × SpiderVal :=
  if (spiders.lookup spider.name).isSome then (spiders, .cls spider)
  else
    let inst := instantiate_spider spider
    ((inst.name, ⟨inst, Methods.empty, Methods.empty, Methods.empty⟩) :: spiders,
      .inst inst)

/-- A concrete sample task used by witnesses and counterexamples. -/
def sampleTask : Request := ⟨"http://a/", "parse"⟩

/-- A concrete sample response used by witnesses and counterexamples. -/
def sampleResp : Response := ⟨"http://a/", 200, [], "body", sampleTask⟩

/-- Skipping a prefix of request hooks that all return `None`: the loop
continues with the remaining hooks on the unchanged request. -/
theorem process_request_skip_none (pre rest : List RequestHook)
    (f : Request → Except Exc Val) (q : Request)
    (hpre : ∀ p ∈ pre, p q = Val.none) :
    process_request (pre ++ rest) f q = process_request rest f q := by
  induction pre with
  | nil => rfl
  | cons p ps ih =>
    have hp : p q = Val.none := hpre p (by simp)
    simp only [List.cons_append, process_request, hp, allowedHookReturn, pyTruthy,
      if_true, if_false, Bool.false_eq_true, ite_false, ite_true]
    exact ih (fun p' h' => hpre p' (by simp [h']))

/-- When every response hook returns `None` on every input, the hook loop
started on `None` ends on `None`. -/
theorem process_response_loop_all_none (hooks : List ResponseHook) (q : Request)
    (h : ∀ m ∈ hooks, ∀ v, m q v = Val.none) :
    process_response_loop hooks q Val.none = Except.ok Val.none := by
  induction hooks with
  | nil => rfl
  | cons m rest ih =>
    have hm : m q Val.none = Val.none := h m (by simp) Val.none
    simp only [process_response_loop, hm, allowedHookReturn, isRequestVal,
      if_true, if_false, Bool.false_eq_true, ite_false, ite_true]
    exact ih (fun m' h' v => h m' (by simp [h']) v)

/-- Folding `_add_middleware` accumulates request hooks at the tail, in
registration order. -/
theorem foldl_add_middleware_req (mws : List Middleware) (acc : Methods) :
    (mws.foldl add_middleware acc).process_request
      = acc.process_request ++ mws.filterMap Middleware.process_request := by
  induction mws generalizing acc with
  | nil => simp
  | cons m ms ih =>
    rw [List.foldl_cons, ih, List.filterMap_cons]
    cases h : m.process_request <;>
      simp [add_middleware, h, Option.toList]

/-- Folding `_add_middleware` accumulates response hooks at the front, in
reverse registration order. -/
theorem foldl_add_middleware_resp (mws : List Middleware) (acc : Methods) :
    (mws.foldl add_middleware acc).process_response
      = (mws.filterMap Middleware.process_response).reverse ++ acc.process_response := by
  induction mws generalizing acc with
  | nil => simp
  | cons m ms ih =>
    rw [List.foldl_cons, ih, List.filterMap_cons]
    cases h : m.process_response <;>
      simp [add_middleware, h, Option.toList]

/-- Folding `_add_middleware` accumulates exception hooks at the front, in
reverse registration order. -/
theorem foldl_add_middleware_exc (mws : List Middleware) (acc : Methods) :
    (mws.foldl add_middleware acc).process_exception
      = (mws.filterMap Middleware.process_exception).reverse ++ acc.process_exception := by
  induction mws generalizing acc with
  | nil => simp
  | cons m ms ih =>
    rw [List.foldl_cons, ih, List.filterMap_cons]
    cases h : m.process_exception <;>
      simp [add_middleware, h, Option.toList]

/-- Claim C3 (confirmed): for every sequence of middleware registrations on a
chain, the stored `process_request` hook list is exactly the registered
request hooks in registration order, while the stored `process_response` and
`process_exception` hook lists are the registered hooks in exact reverse
registration order.  The execution functions (`process_request`,
`process_response_loop`, `process_exception`) consume these lists
front-to-back, so storage order is execution order. -/
theorem middleware_registration_order (mws : List Middleware) :
    (register_middlewares mws).process_request
        = mws.filterMap Middleware.process_request
    ∧ (register_middlewares mws).process_response
        = (mws.filterMap Middleware.process_response).reverse
    ∧ (register_middlewares mws).process_exception
        = (mws.filterMap Middleware.process_exception).reverse := by
  refine ⟨?_, ?_, ?_⟩ <;>
    simp [register_middlewares, foldl_add_middleware_req, foldl_add_middleware_resp,
      foldl_add_middleware_exc, Methods.empty]

/-- Claim C1 counterexample: with no request hooks, a fetch returning a
Result, and a single response hook that returns `None`, `download` returns
`None`, not the Result that entered the response phase — so a `None` return
does not leave the current Result unchanged. -/
theorem response_phase_none_counterexample :
    download [] [fun _ _ => Val.none] []
        (fun _ => Except.ok (Val.resp sampleResp)) sampleTask = Except.ok Val.none
    ∧ Except.ok Val.none ≠ (Except.ok (Val.resp sampleResp) : Except Exc Val) :=
  ⟨rfl, by simp [sampleResp]⟩

/-- Claim C1 (corrected): a `process_response` hook that returns `None` makes
`None` — not the current Result — the input to the next response hook, and
when at least one response hook is registered and every response hook returns
`None`, the response phase of `download` yields `None` instead of the Result
that entered it. -/
theorem response_phase_none_folds_forward :
    (∀ (m : ResponseHook) (rest : List ResponseHook) (q : Request) (v : Val),
      m q v = Val.none →
      process_response_loop (m :: rest) q v = process_response_loop rest q Val.none)
    ∧ (∀ (hooks : List ResponseHook) (q : Request) (r : Response),
      (∀ m ∈ hooks, ∀ v, m q v = Val.none) → hooks ≠ [] →
      process_response hooks q (Val.resp r) = Except.ok Val.none) := by
  constructor
  · intro m rest q v hm
    simp [process_response_loop, hm, allowedHookReturn, isRequestVal]
  · intro hooks q r hall hne
    cases hooks with
    | nil => exact absurd rfl hne
    | cons m rest =>
      have hm : m q (Val.resp r) = Val.none := hall m (by simp) (Val.resp r)
      simp only [process_response, isRequestVal, process_response_loop, hm,
        allowedHookReturn, reduceCtorEq, if_false, Bool.false_eq_true, ite_false,
        ite_true]
      exact process_response_loop_all_none rest q
        (fun m' h' v => hall m' (by simp [h']) v)

/-- Claim C1 witness: the corrected behavior at a concrete chain. -/
theorem response_phase_none_folds_forward_witness :
    process_response [fun _ _ => Val.none] sampleTask (Val.resp sampleResp)
      = Except.ok Val.none :=
  response_phase_none_folds_forward.2 [fun _ _ => Val.none] sampleTask sampleResp
    (by intro m hm v; simp only [List.mem_singleton] at hm; subst hm; rfl)
    (by simp)

/-- Claim C2 (confirmed): if a `process_request` hook is reached (all earlier
request hooks returned `None`) and returns a Result, then `process_request`
returns that Result for every fetch function `f` — so `download_func` is never
invoked and the remaining request hooks (arbitrary `post`) are skipped — and
the body of `download`'s try block continues with exactly that Result as the
input of the response phase. -/
theorem request_hook_result_short_circuits (pre : List RequestHook)
    (m : RequestHook) (post : List RequestHook) (f : Request → Except Exc Val)
    (q : Request) (r : Response) (respHooks : List ResponseHook)
    (hpre : ∀ p ∈ pre, p q = Val.none) (hm : m q = Val.resp r) :
    process_request (pre ++ m :: post) f q = Except.ok (Val.resp r)
    ∧ download_attempt (pre ++ m :: post) respHooks f q
        = process_response respHooks q (Val.resp r) := by
  have h1 : process_request (pre ++ m :: post) f q = Except.ok (Val.resp r) := by
    rw [process_request_skip_none pre (m :: post) f q hpre]
    simp [process_request, hm, allowedHookReturn, pyTruthy]
  exact ⟨h1, by simp [download_attempt, h1]⟩

/-- Claim C2 witness: concrete chain with one Result-returning request hook;
the fetch function shown is arbitrary and unused. -/
theorem request_hook_result_short_circuits_witness :
    process_request [fun _ => Val.resp sampleResp]
        (fun _ => Except.error (Exc.other "fetch must not run")) sampleTask
      = Except.ok (Val.resp sampleResp) :=
  (request_hook_result_short_circuits [] (fun _ => Val.resp sampleResp) []
    (fun _ => Except.error (Exc.other "fetch must not run")) sampleTask sampleResp []
    (by intro p hp; simp at hp) rfl).1

/-- Claim C4 (confirmed): a fault raised anywhere in the try block (request
phase, fetch, or response phase) is handed to `process_exception`; the fault
is offered to each exception hook in execution order, a `None` return moving
on to the next hook; and if every hook returns `None`, `download`'s exception
phase returns the original fault value (`Except.ok`, i.e. not re-raised)
unchanged. -/
theorem exception_chain_contract :
    (∀ (m : ExceptionHook) (rest : List ExceptionHook) (q : Request) (e : Exc),
      m q e = Val.none →
      process_exception (m :: rest) q e = process_exception rest q e)
    ∧ (∀ (excHooks : List ExceptionHook) (q : Request) (e : Exc),
      (∀ m ∈ excHooks, m q e = Val.none) →
      process_exception excHooks q e = Except.ok (Val.exc e))
    ∧ (∀ (reqHooks : List RequestHook) (respHooks : List ResponseHook)
        (excHooks : List ExceptionHook) (f : Request → Except Exc Val)
        (q : Request) (e : Exc),
      download_attempt reqHooks respHooks f q = Except.error e →
      download reqHooks respHooks excHooks f q = process_exception excHooks q e) := by
  refine ⟨?_, ?_, ?_⟩
  · intro m rest q e hm
    simp [process_exception, hm]
  · intro excHooks q e hall
    induction excHooks with
    | nil => rfl
    | cons m rest ih =>
      have hm : m q e = Val.none := hall m (by simp)
      simp only [process_exception, hm, if_true, ite_true]
      exact ih (fun m' h' => hall m' (by simp [h']))
  · intro reqHooks respHooks excHooks f q e h
    simp [download, h]

/-- Claim C4 witness: a fetch fault crosses two `None`-returning exception
hooks and comes back unchanged as a plain value. -/
theorem exception_chain_contract_witness :
    process_exception [fun _ _ => Val.none, fun _ _ => Val.none] sampleTask
        (Exc.other "transport down")
      = Except.ok (Val.exc (Exc.other "transport down")) :=
  exception_chain_contract.2.1 [fun _ _ => Val.none, fun _ _ => Val.none]
    sampleTask (Exc.other "transport down")
    (by intro m hm; rcases List.mem_cons.mp hm with h | h
        · subst h; rfl
        · simp only [List.mem_singleton] at h; subst h; rfl)

/-- Claim C5 counterexample: a request hook returning a string (outside the
allowed set `None`/Response/Request) raises an AssertionError that IS caught
by `download`'s exception phase: an exception hook that echoes the fault it
receives observes that AssertionError, and `download` returns the hook's
outcome as a normal value instead of failing — contradicting both "fails
immediately" and "no process_exception hook is invoked with it". -/
theorem contract_violation_counterexample :
    download [fun _ => Val.str "bad"] [] [fun _ e => Val.seq [Outcome.exc e]]
        (fun _ => Except.ok Val.none) sampleTask
      = Except.ok (Val.seq [Outcome.exc
          (Exc.assertionError "process_request must return None, Response or Request")])
    ∧ Except.ok (Val.seq [Outcome.exc
          (Exc.assertionError "process_request must return None, Response or Request")])
        ≠ (Except.error
            (Exc.assertionError "process_request must return None, Response or Request")
          : Except Exc Val) :=
  ⟨rfl, by simp⟩

/-- Resuming the response-hook loop across an append: if the prefix of hooks
runs through without raising and without short-circuiting on a Request
(ending with current value `w`), the full loop continues with the remaining
hooks started on `w`. -/
theorem process_response_loop_skip (pre post : List ResponseHook) (q : Request)
    (v w : Val) (h : process_response_loop pre q v = Except.ok w)
    (hw : isRequestVal w = false) :
    process_response_loop (pre ++ post) q v = process_response_loop post q w := by
  induction pre generalizing v with
  | nil =>
    simp only [process_response_loop] at h
    injection h with h'
    subst h'
    rfl
  | cons p ps ih =>
    cases ha : allowedHookReturn (p q v) with
    | false => simp [process_response_loop, ha] at h
    | true =>
      cases hr : isRequestVal (p q v) with
      | true =>
        simp [process_response_loop, ha, hr] at h
        rw [← h, hr] at hw
        cases hw
      | false =>
        simp only [process_response_loop, ha, hr, List.cons_append, if_true,
          if_false, Bool.false_eq_true, ite_false, ite_true] at h ⊢
        exact ih (p q v) h

/-- Claim C5 (corrected): a `process_request` or `process_response` hook
returning a value outside the allowed set raises an AssertionError inside
`download`'s try block, which is therefore caught like any other fault and
handed to the registered `process_exception` hooks.  The request-phase case
holds for a violating hook at any reached position (all earlier request hooks
returned `None`); the response-phase case holds for a violating hook at any
reached position (the earlier response hooks ran through to current value `v`
without raising or short-circuiting). -/
theorem contract_violation_caught_by_exception_phase :
    (∀ (pre : List RequestHook) (m : RequestHook) (post : List RequestHook)
        (respHooks : List ResponseHook) (excHooks : List ExceptionHook)
        (f : Request → Except Exc Val) (q : Request),
      (∀ p ∈ pre, p q = Val.none) → allowedHookReturn (m q) = false →
      download (pre ++ m :: post) respHooks excHooks f q
        = process_exception excHooks q
            (Exc.assertionError "process_request must return None, Response or Request"))
    ∧ (∀ (reqHooks : List RequestHook) (f : Request → Except Exc Val)
        (q : Request) (pre : List ResponseHook) (m : ResponseHook)
        (post : List ResponseHook) (excHooks : List ExceptionHook)
        (r : Response) (v : Val),
      process_request reqHooks f q = Except.ok (Val.resp r) →
      process_response_loop pre q (Val.resp r) = Except.ok v →
      isRequestVal v = false →
      allowedHookReturn (m q v) = false →
      download reqHooks (pre ++ m :: post) excHooks f q
        = process_exception excHooks q
            (Exc.assertionError "process_response must return Response or Request")) := by
  constructor
  · intro pre m post respHooks excHooks f q hpre hbad
    have h1 : process_request (pre ++ m :: post) f q
        = Except.error
            (Exc.assertionError "process_request must return None, Response or Request") := by
      rw [process_request_skip_none pre (m :: post) f q hpre]
      simp [process_request, hbad]
    simp [download, download_attempt, h1]
  · intro reqHooks f q pre m post excHooks r v hreq hloop hv hbad
    have hskip := process_response_loop_skip pre (m :: post) q (Val.resp r) v hloop hv
    have h1 : process_response (pre ++ m :: post) q (Val.resp r)
        = Except.error
            (Exc.assertionError "process_response must return Response or Request") := by
      have hcall : process_response (pre ++ m :: post) q (Val.resp r)
          = process_response_loop (pre ++ m :: post) q (Val.resp r) := by
        simp [process_response, isRequestVal]
      rw [hcall, hskip]
      simp [process_response_loop, hbad]
    simp [download, download_attempt, hreq, h1]

/-- Claim C5 witness: a request-phase violation with no exception hooks, and
a response-phase violation by the second response hook (reached after a
`None`-returning first hook); both AssertionErrors come back through the
exception phase. -/
theorem contract_violation_caught_witness :
    download [fun _ => Val.str "bad"] [] [] (fun _ => Except.ok Val.none) sampleTask
      = process_exception [] sampleTask
          (Exc.assertionError "process_request must return None, Response or Request")
    ∧ download [] [fun _ _ => Val.none, fun _ _ => Val.str "bad"] []
          (fun _ => Except.ok (Val.resp sampleResp)) sampleTask
      = process_exception [] sampleTask
          (Exc.assertionError "process_response must return Response or Request") :=
  ⟨contract_violation_caught_by_exception_phase.1 [] (fun _ => Val.str "bad") [] [] []
      (fun _ => Except.ok Val.none) sampleTask (by intro p hp; simp at hp) rfl,
    contract_violation_caught_by_exception_phase.2 []
      (fun _ => Except.ok (Val.resp sampleResp)) sampleTask [fun _ _ => Val.none]
      (fun _ _ => Val.str "bad") [] [] sampleResp Val.none rfl rfl rfl rfl⟩

/-- Claim C6 (confirmed): a reached request hook returning a Task makes
`download` return exactly that Task for every choice of response hooks,
exception hooks, remaining request hooks and fetch function — the fetch, the
remaining request hooks and the whole response phase are skipped; and a
response hook returning a Task terminates the response loop immediately with
that Task, skipping the remaining response hooks. -/
theorem task_return_short_circuits :
    (∀ (pre : List RequestHook) (m : RequestHook) (post : List RequestHook)
        (respHooks : List ResponseHook) (excHooks : List ExceptionHook)
        (f : Request → Except Exc Val) (q : Request) (t : Request),
      (∀ p ∈ pre, p q = Val.none) → m q = Val.req t →
      download (pre ++ m :: post) respHooks excHooks f q = Except.ok (Val.req t))
    ∧ (∀ (m : ResponseHook) (rest : List ResponseHook) (q : Request) (v : Val)
        (t : Request),
      m q v = Val.req t →
      process_response_loop (m :: rest) q v = Except.ok (Val.req t)) := by
  constructor
  · intro pre m post respHooks excHooks f q t hpre hm
    have h1 : process_request (pre ++ m :: post) f q = Except.ok (Val.req t) := by
      rw [process_request_skip_none pre (m :: post) f q hpre]
      simp [process_request, hm, allowedHookReturn, pyTruthy]
    simp [download, download_attempt, h1, process_response, isRequestVal]
  · intro m rest q v t hm
    simp [process_response_loop, hm, allowedHookReturn, isRequestVal]

/-- Claim C6 witness: one Task-returning request hook, one response hook that
would be observable if the response phase ran — `download` returns the Task
unchanged. -/
theorem task_return_short_circuits_witness :
    download [fun _ => Val.req ⟨"http://a/next", "parse"⟩]
        [fun _ _ => Val.resp sampleResp] []
        (fun _ => Except.error (Exc.other "fetch must not run")) sampleTask
      = Except.ok (Val.req ⟨"http://a/next", "parse"⟩) :=
  task_return_short_circuits.1 [] (fun _ => Val.req ⟨"http://a/next", "parse"⟩) []
    [fun _ _ => Val.resp sampleResp] []
    (fun _ => Except.error (Exc.other "fetch must not run")) sampleTask
    ⟨"http://a/next", "parse"⟩ (by intro p hp; simp at hp) rfl

/-- Claim C7 counterexample: an iterable of outcomes (as a `process_exception`
hook may return, and `download` then passes through) is not a Result, yet
`distribute`'s classification falls through to the scrape branch with it — so
it is not true that only a Result is passed on to the spider chain. -/
theorem distribute_scrape_counterexample :
    classify_download_result (Val.seq []) = DistributeAction.scrape (Val.seq [])
    ∧ isResponseVal (Val.seq []) = false :=
  ⟨rfl, rfl⟩

/-- Claim C7 (corrected): `distribute` classifies the value returned by
`download` by isinstance cascade — a Task is appended at the tail of the FIFO
queue; the `IgnoreRequest` marker is dropped with no further processing; any
other exception value is logged as an error and dropped; and every remaining
value — a Result, but also any non-Task, non-exception value such as a
hook-produced outcome sequence — is passed on to the spider chain's scrape
operation. -/
theorem distribute_classification :
    (∀ (queue : List Request) (t : Request),
      distribute_step queue (Val.req t) = (queue ++ [t], DistributeAction.requeue t))
    ∧ (∀ (queue : List Request) (msg : String),
      distribute_step queue (Val.exc (Exc.ignoreRequest msg))
        = (queue, DistributeAction.dropIgnored))
    ∧ (∀ (queue : List Request) (e : Exc), isIgnoreRequestVal (Val.exc e) = false →
      distribute_step queue (Val.exc e) = (queue, DistributeAction.dropError e))
    ∧ (∀ (queue : List Request) (v : Val), isRequestVal v = false →
      isExceptionVal v = false →
      distribute_step queue v = (queue, DistributeAction.scrape v)) := by
  refine ⟨fun queue t => rfl, fun queue msg => rfl, ?_, ?_⟩
  · intro queue e he
    cases e with
    | ignoreRequest msg => simp [isIgnoreRequestVal] at he
    | assertionError msg => rfl
    | other msg => rfl
  · intro queue v h1 h2
    cases v with
    | none => rfl
    | resp r => rfl
    | req t => simp [isRequestVal] at h1
    | exc e => simp [isExceptionVal] at h2
    | seq l => rfl
    | str s => rfl

/-- Claim C7 witness: a non-ignore exception value is logged and dropped,
leaving the queue untouched. -/
theorem distribute_classification_witness :
    distribute_step [sampleTask] (Val.exc (Exc.other "boom"))
      = ([sampleTask], DistributeAction.dropError (Exc.other "boom")) :=
  distribute_classification.2.2.1 [sampleTask] (Exc.other "boom") rfl

/-- Claim C8 (confirmed): one consumer iteration acknowledges the pulled task
(`task_done` sits in a `finally`) on every path; a non-fatal fault escaping
`distribute` is logged and the loop continues to the next pull; the four
fatal process signals are re-raised and terminate the worker; and a whole run
whose `distribute` outcomes are all non-fatal acknowledges every task and
lets no exception escape the worker. -/
theorem worker_loop_resilience :
    consumer_iteration (Except.ok ()) = WorkerStep.continueLoop true
    ∧ (∀ e : PyExc, isFatalSignal e = false →
      consumer_iteration (Except.error e) = WorkerStep.continueLoop true)
    ∧ (∀ e : PyExc, isFatalSignal e = true →
      consumer_iteration (Except.error e) = WorkerStep.propagate e true)
    ∧ (∀ outcomes : List (Except PyExc Unit),
      (∀ e : PyExc, Except.error e ∈ outcomes → isFatalSignal e = false) →
      consumer_run outcomes = (outcomes.length, Option.none)) := by
  refine ⟨rfl, ?_, ?_, ?_⟩
  · intro e he
    simp [consumer_iteration, he]
  · intro e he
    simp [consumer_iteration, he]
  · intro outcomes h
    induction outcomes with
    | nil => rfl
    | cons o rest ih =>
      have hrest : consumer_run rest = (rest.length, Option.none) :=
        ih (fun e he => h e (by simp [he]))
      cases o with
      | ok u =>
        simp [consumer_run, consumer_iteration, hrest]
      | error e =>
        have he : isFatalSignal e = false := h e (by simp)
        simp [consumer_run, consumer_iteration, he, hrest]

/-- Claim C8 witness: a two-task run where the first `distribute` raises an
ordinary exception still acknowledges both tasks and the worker survives. -/
theorem worker_loop_resilience_witness :
    consumer_run [Except.error (PyExc.exception (Exc.other "boom")), Except.ok ()]
      = (2, Option.none) :=
  worker_loop_resilience.2.2.2
    [Except.error (PyExc.exception (Exc.other "boom")), Except.ok ()]
    (by intro e he
        rcases List.mem_cons.mp he with h | h
        · cases h; rfl
        · simp at h)

/-- Claim C9 counterexample: registering the spider class named "quotes"
twice leaves the registry unchanged, but the second call returns the class
that was passed in — not the registered `SpiderInstance` stored in the
registry — so re-registration does not return the existing registered
instance. -/
theorem register_spider_counterexample :
    (register_spider (register_spider [] ⟨"quotes"⟩).1 ⟨"quotes"⟩).1
        = (register_spider [] ⟨"quotes"⟩).1
    ∧ (register_spider (register_spider [] ⟨"quotes"⟩).1 ⟨"quotes"⟩).2
        = SpiderVal.cls ⟨"quotes"⟩
    ∧ ((register_spider [] ⟨"quotes"⟩).1.lookup "quotes").map SpiderRegistration.spider
        = some (instantiate_spider ⟨"quotes"⟩)
    ∧ SpiderVal.cls ⟨"quotes"⟩ ≠ SpiderVal.inst (instantiate_spider ⟨"quotes"⟩) :=
  ⟨rfl, rfl, rfl, by simp [instantiate_spider]⟩

/-- Claim C9 (corrected): `register_spider` creates a fresh
SpiderRegistration (instantiated spider plus three fresh chain managers) when
no entry exists for the spider's name; re-registering an already-known spider
leaves the registry unchanged and returns the argument — the spider class
passed in — unchanged, not the stored registered instance. -/
theorem register_spider_behavior :
    (∀ (spiders : List (String × SpiderRegistration)) (c : SpiderClass),
      (spiders.lookup c.name).isSome = true →
      register_spider spiders c = (spiders, SpiderVal.cls c))
    ∧ (∀ (spiders : List (String × SpiderRegistration)) (c : SpiderClass),
      (spiders.lookup c.name).isSome = false →
      register_spider spiders c
        = ((c.name, ⟨instantiate_spider c, Methods.empty, Methods.empty,
              Methods.empty⟩) :: spiders,
            SpiderVal.inst (instantiate_spider c))) := by
  constructor
  · intro spiders c h
    simp [register_spider, h]
  · intro spiders c h
    simp [register_spider, h, instantiate_spider]

/-- Claim C9 witness: re-registering the class named "s1" returns the class
and keeps the registry as it was. -/
theorem register_spider_behavior_witness :
    register_spider (register_spider [] ⟨"s1"⟩).1 ⟨"s1"⟩
      = ((register_spider [] ⟨"s1"⟩).1, SpiderVal.cls ⟨"s1"⟩) :=
  register_spider_behavior.1 (register_spider [] ⟨"s1"⟩).1 ⟨"s1"⟩ rfl

/-- Claim C10 (confirmed): `fetch` records `task.url` into the SeenSet before
the transport request, so for every transport behavior — faulting or not —
the returned SeenSet is `addSeen seen task.url` and contains `task.url`. -/
theorem fetch_records_url_before_transport (seen : List String) (task : Request)
    (transport : Request → Except Exc TransportResponse) :
    task.url ∈ (fetch seen task transport).1
    ∧ (fetch seen task transport).1 = addSeen seen task.url := by
  have h2 : (fetch seen task transport).1 = addSeen seen task.url := by
    unfold fetch
    cases transport task <;> rfl
  refine ⟨?_, h2⟩
  rw [h2]
  unfold addSeen
  by_cases h : task.url ∈ seen <;> simp [h]

end Arachnid
